import Mathlib

/-!
Verification of the contact-list cleaning utilities (clay.py, dedupe.py):
a shallow embedding of the name normalizer, e-mail validator, CSV cleaning
pipeline and the LinkedIn deduplicator, together with theorems settling the
specification's claims about them.
-/

namespace Clay

/-! ### Python string primitives used by the scripts -/

/-- The whitespace characters stripped by Python's `str.strip()` (ASCII part). -/
def isWS (c : Char) : Bool :=
  c == ' ' || c == '\t' || c == '\n' || c == '\r' || c == Char.ofNat 11 || c == Char.ofNat 12

/-- `str.strip()` on a character list: drop whitespace at both ends. -/
def stripList (cs : List Char) : List Char :=
  ((cs.dropWhile isWS).reverse.dropWhile isWS).reverse

/-- Python `str.strip()`. -/
def pyStrip (s : String) : String := String.mk (stripList s.toList)

/-- Helper for `pySplit`: accumulate the current word (reversed) while walking
the character list; whitespace runs separate words and produce no empty words. -/
def wordsAux : List Char → List Char → List (List Char)
  | [], acc => if acc = [] then [] else [acc.reverse]
  | c :: cs, acc =>
    if isWS c then
      if acc = [] then wordsAux cs []
      else acc.reverse :: wordsAux cs []
    else wordsAux cs (c :: acc)

/-- Python `str.split()` with no argument: split on whitespace runs, no empties. -/
def pySplit (s : String) : List String := (wordsAux s.toList []).map String.mk

/-- Python `str.capitalize()`: first character uppercased, the rest lowercased. -/
def pyCapitalize (s : String) : String :=
  match s.toList with
  | [] => s
  | c :: cs => String.mk (c.toUpper :: cs.map Char.toLower)

/-! ### EmailValidator (`validate_email` in clay.py) -/

/-- The JSON body of a 200 response from the validation service, with the three
fields the code reads; `none` models an absent field (`dict.get` default).
`is_valid_format` is itself an object whose `value` key may be absent. -/
structure ValidationResponse where
  deliverability : Option String
  quality_score : Option ℚ
  is_valid_format : Option (Option Bool)
deriving DecidableEq

/-- The HTTP 200 decision rule of `validate_email`:
`deliverability == 'DELIVERABLE'`, `float(quality_score or 0) > 0.7`,
and `is_valid_format.get('value', False)`. -/
def decision (data : ValidationResponse) : Bool :=
  let is_deliverable := decide (data.deliverability = some "DELIVERABLE")
  let quality_score : ℚ := data.quality_score.getD 0
  let is_valid_format := (data.is_valid_format.getD none).getD false
  is_deliverable && decide (quality_score > 7 / 10) && is_valid_format

/-- Outcome of one HTTP request: a status code with a parsed body, or a
transport-level exception. -/
inductive HttpResult where
  | response (code : Nat) (data : ValidationResponse)
  | exception
deriving DecidableEq

/-- Status code of a result, `none` for a transport exception. -/
def statusOf : HttpResult → Option Nat
  | HttpResult.response code _ => some code
  | HttpResult.exception => none

/-- What one pass through the body of `validate_email` does with a result:
either return a boolean, or sleep the given number of seconds and retry. -/
inductive StepOutcome where
  | done (keep : Bool)
  | retryAfter (seconds : Nat)
deriving DecidableEq

/-- One pass through the body of `validate_email`: 200 applies the decision
rule, 429 sleeps 1 second and retries, 422 and every other status return
false, as does a transport exception. -/
def validateStep : HttpResult → StepOutcome
  | HttpResult.exception => StepOutcome.done false
  | HttpResult.response code data =>
    if code = 200 then StepOutcome.done (decision data)
    else if code = 429 then StepOutcome.retryAfter 1
    else if code = 422 then StepOutcome.done false
    else StepOutcome.done false

/-- The request `validate_email` issues: the e-mail and the API credential. -/
structure Request where
  email : String
  api_key : String
deriving DecidableEq

/-- `validate_email` as a loop over the environment's answers: `oracle r k` is
the result of the `k`-th issue of request `r`.  The code recurses without
bound on 429, so the embedding carries fuel; `none` means the fuel ran out
while the code was still retrying. -/
def validate_email_go (oracle : Request → Nat → HttpResult) (req : Request) :
    Nat → Nat → Option Bool
  | _, 0 => none
  | attempt, Nat.succ fuel =>
    match validateStep (oracle req attempt) with
    | StepOutcome.done b => some b
    | StepOutcome.retryAfter _ => validate_email_go oracle req (attempt + 1) fuel

/-! ### NameNormalizer (`is_initials`, `clean_first_name` in clay.py) -/

/-- `[A-Za-z]`. -/
def isLetterAZ (c : Char) : Bool :=
  (decide ('A' ≤ c) && decide (c ≤ 'Z')) || (decide ('a' ≤ c) && decide (c ≤ 'z'))

/-- Matcher for the tail `(?:[. ]?[A-Za-z]){0,k}[.]?$` of the initials regex. -/
def matchInitialsTail : Nat → List Char → Bool
  | _, [] => true
  | 0, cs => decide (cs = ['.'])
  | Nat.succ k, c :: cs =>
    if isLetterAZ c then matchInitialsTail k cs
    else if c == '.' || c == ' ' then
      match cs with
      | [] => c == '.'
      | c2 :: cs2 => isLetterAZ c2 && matchInitialsTail k cs2
    else false

/-- Full match of `^[A-Za-z](?:[. ]?[A-Za-z]){0,2}[.]?$`. -/
def initialsMatch : List Char → Bool
  | [] => false
  | c :: cs => isLetterAZ c && matchInitialsTail 2 cs

/-- `is_initials`: NaN is not initials; otherwise strip and match the regex. -/
def is_initials : Option String → Bool
  | none => false
  | some s => initialsMatch (pyStrip s).toList

/-- The straight single quote character. -/
def sq : Char := Char.ofNat 39

/-- The straight double quote character. -/
def dq : Char := Char.ofNat 34

/-- Either straight quote, the class `['"]`. -/
def isStraightQuote (c : Char) : Bool := c == sq || c == dq

/-- One alternative of the quote regex, `open(content+)close`, tried at the
head of the list: the opening character must satisfy `openP`, the greedy
nonempty content run satisfies `contentP`, and the character after the run
must satisfy `closeP` (for the three alternatives of the source pattern the
closer is excluded from the content class, so the greedy run is exact). -/
def tryQuoteAlt (openP contentP closeP : Char → Bool) : List Char → Option String
  | [] => none
  | c :: rest =>
    if openP c then
      match rest.dropWhile contentP with
      | c2 :: _ =>
        if closeP c2 && !(rest.takeWhile contentP).isEmpty then
          some (String.mk (rest.takeWhile contentP))
        else none
      | [] => none
    else none

/-- First alternative `['"]([^'"]+)['"]`: any straight quote opens and any
straight quote closes (they need not be the same character). -/
def tryAlt1 : List Char → Option String :=
  tryQuoteAlt isStraightQuote (fun c => !isStraightQuote c) isStraightQuote

/-- Second alternative `"([^"]+)"`: straight double quotes. -/
def tryAlt2 : List Char → Option String :=
  tryQuoteAlt (fun c => c == dq) (fun c => !(c == dq)) (fun c => c == dq)

/-- Third alternative `'([^']+)'`: straight single quotes. -/
def tryAlt3 : List Char → Option String :=
  tryQuoteAlt (fun c => c == sq) (fun c => !(c == sq)) (fun c => c == sq)

/-- `re.search` of the quote pattern: scan left to right, and at each position
try the three alternatives in pattern order; return the captured group of the
first (leftmost) match. -/
def quoteSearch : List Char → Option String
  | [] => none
  | c :: cs =>
    match tryAlt1 (c :: cs) with
    | some g => some g
    | none =>
      match tryAlt2 (c :: cs) with
      | some g => some g
      | none =>
        match tryAlt3 (c :: cs) with
        | some g => some g
        | none => quoteSearch cs

/-- The fallback of `clean_first_name`: `name.split()[0].capitalize()`.
Indexing an empty split raises IndexError, modelled by `none`. -/
def defaultName (t : String) : Option (Option String × Bool) :=
  match pySplit t with
  | [] => none
  | w :: _ => some (some (pyCapitalize w), true)

/-- `clean_first_name`: NaN is returned unchanged and not confident; otherwise
strip, return initials unchanged and not confident, else extract the first
quoted substring (Python's `if quoted_name:` also rejects an empty group),
else capitalize the first whitespace-separated token.  The outer `Option` is
`none` when the code raises. -/
def clean_first_name (name : Option String) : Option (Option String × Bool) :=
  match name with
  | none => some (none, false)
  | some s =>
    let t := pyStrip s
    if is_initials (some t) then some (some t, false)
    else
      match quoteSearch t.toList with
      | some q => if q.toList = [] then defaultName t else some (some (pyStrip q), true)
      | none => defaultName t

/-! ### CsvCleanerPipeline (`process_csv` in clay.py) -/

/-- A row of the cleaning pipeline: the `First Name` cell (NaN possible) and
the `Email` cell. -/
structure CRow where
  firstName : Option String
  email : String
deriving DecidableEq

/-- The name-cleaning pass: rewrite every row's name and record an
`(original name, email)` entry for every non-confident result, in row order;
`none` when `clean_first_name` raises on some row. -/
def cleanPass : List CRow → Option (List CRow × List (Option String × String))
  | [] => some ([], [])
  | r :: rs =>
    match clean_first_name r.firstName with
    | none => none
    | some (newName, isValid) =>
      match cleanPass rs with
      | none => none
      | some (rows, inv) =>
        some ({ r with firstName := newName } :: rows,
              if isValid then inv else (r.firstName, r.email) :: inv)

/-- `process_csv` over one loaded table: clean the names, tag every row with
the validator's verdict on its e-mail, keep the tagged-true rows in order and
drop the tag; returns the kept rows and the invalid-name report entries. -/
def process_csv (validator : String → Bool) (rows : List CRow) :
    Option (List CRow × List (Option String × String)) :=
  match cleanPass rows with
  | none => none
  | some (cleaned, invalid) =>
    let tagged := cleaned.map (fun r => (r, validator r.email))
    let kept := (tagged.filter (fun p => p.2)).map (fun p => p.1)
    some (kept, invalid)

/-! ### Deduper (`dedupe_csv` in dedupe.py) -/

/-- A row of the input table of the deduper: the `LinkedIn Profile` cell
(NaN possible) and the remaining cells, passed through untouched. -/
structure DRow where
  profile : Option String
  rest : List String
deriving DecidableEq

/-- The key normalization `fillna('').str.strip()` written back into the row. -/
def normalizeDRow (r : DRow) : DRow :=
  { r with profile := some (pyStrip (r.profile.getD "")) }

/-- `dedupe_csv`: build the set of trimmed non-NaN master keys, write the
trimmed key back into every input row, and keep the rows whose key is not in
the master set and not empty, in order. -/
def dedupe_csv (master : List (Option String)) (input : List DRow) : List DRow :=
  let master_urls : List String := (master.filterMap id).map pyStrip
  let input2 := input.map normalizeDRow
  input2.filter (fun r =>
    !(decide ((r.profile.getD "") ∈ master_urls)) && !(decide (r.profile.getD "" = "")))


/-! ### Helper lemmas -/

theorem dropWhileHeadFalse {α : Type} (p : α → Bool) :
    ∀ (l : List α) (c : α), (l.dropWhile p).head? = some c → p c = false := by
  intro l
  induction l with
  | nil => intro c h; simp [List.dropWhile] at h
  | cons a t ih =>
    intro c h
    by_cases hpa : p a = true
    · rw [List.dropWhile_cons_of_pos hpa] at h
      exact ih c h
    · rw [List.dropWhile_cons_of_neg hpa] at h
      simp at h
      subst h
      simpa using hpa

theorem dropWhileSelf {α : Type} (p : α → Bool) (l : List α)
    (h : ∀ c, l.head? = some c → p c = false) : l.dropWhile p = l := by
  cases l with
  | nil => rfl
  | cons a t =>
    have ha := h a rfl
    rw [List.dropWhile_cons_of_neg (by simp [ha])]

theorem dropWhileIdem {α : Type} (p : α → Bool) (l : List α) :
    (l.dropWhile p).dropWhile p = l.dropWhile p :=
  dropWhileSelf p _ (dropWhileHeadFalse p l)

theorem dropWhileIsSuffix {α : Type} (p : α → Bool) (l : List α) :
    ∃ t, t ++ l.dropWhile p = l := by
  induction l with
  | nil => exact ⟨[], rfl⟩
  | cons a t ih =>
    by_cases hpa : p a = true
    · obtain ⟨u, hu⟩ := ih
      exact ⟨a :: u, by rw [List.dropWhile_cons_of_pos hpa]; simpa using hu⟩
    · exact ⟨[], by rw [List.dropWhile_cons_of_neg hpa]; rfl⟩

theorem stripListIdem (cs : List Char) : stripList (stripList cs) = stripList cs := by
  unfold stripList
  have h1 : (((cs.dropWhile isWS).reverse.dropWhile isWS).reverse).dropWhile isWS
      = ((cs.dropWhile isWS).reverse.dropWhile isWS).reverse := by
    apply dropWhileSelf
    intro c hc
    obtain ⟨t, ht⟩ := dropWhileIsSuffix isWS (cs.dropWhile isWS).reverse
    have hd : cs.dropWhile isWS
        = ((cs.dropWhile isWS).reverse.dropWhile isWS).reverse ++ t.reverse := by
      have := congrArg List.reverse ht
      simpa using this.symm
    rcases he : ((cs.dropWhile isWS).reverse.dropWhile isWS).reverse with _ | ⟨x, xs⟩
    · rw [he] at hc; simp at hc
    · rw [he] at hc
      simp at hc
      rw [he] at hd
      have hx : (cs.dropWhile isWS).head? = some x := by rw [hd]; rfl
      have := dropWhileHeadFalse isWS cs x hx
      rw [← hc]
      exact this
  rw [h1, List.reverse_reverse, dropWhileIdem]

theorem pyStripIdem (s : String) : pyStrip (pyStrip s) = pyStrip s := by
  show String.mk (stripList (stripList s.toList)) = String.mk (stripList s.toList)
  rw [stripListIdem]

theorem filterMapComm {α β : Type} (f : α → β) (p : β → Bool) (l : List α) :
    (l.map f).filter p = (l.filter (fun a => p (f a))).map f := by
  induction l with
  | nil => rfl
  | cons a t ih =>
    by_cases hpa : p (f a) = true
    · simp [List.filter_cons, hpa, ih]
    · have hpa2 : p (f a) = false := by simpa using hpa
      simp [List.filter_cons, hpa2, ih]

theorem mapSelf {α : Type} (f : α → α) (l : List α) (h : ∀ a ∈ l, f a = a) :
    l.map f = l := by
  induction l with
  | nil => rfl
  | cons a t ih =>
    simp only [List.map_cons]
    rw [h a (List.mem_cons_self a t), ih (fun b hb => h b (List.mem_cons_of_mem a hb))]

theorem filterIdem {α : Type} (p : α → Bool) (l : List α) :
    (l.filter p).filter p = l.filter p := by
  induction l with
  | nil => rfl
  | cons a t ih =>
    by_cases hpa : p a = true
    · simp [List.filter_cons, hpa, ih]
    · have hpa2 : p a = false := by simpa using hpa
      simp [List.filter_cons, hpa2, ih]

theorem tagFilterMap (v : String → Bool) (l : List CRow) :
    ((l.map (fun r => (r, v r.email))).filter (fun p => p.2)).map (fun p => p.1)
      = l.filter (fun r => v r.email) := by
  induction l with
  | nil => rfl
  | cons a t ih =>
    by_cases hv : v a.email = true
    · simp [List.filter_cons, hv, ih]
    · have hv2 : v a.email = false := by simpa using hv
      simp [List.filter_cons, hv2, ih]


/-! ### Claim theorems -/

/-- C1: on an HTTP 200 response, `validate_email` answers true iff the
deliverability field equals "DELIVERABLE", the quality score (defaulting to 0
when the field is missing) is strictly greater than 0.7, and the service
reports the address as syntactically valid; in particular a missing quality
score forces a false verdict. -/
theorem validate_decision_rule (data : ValidationResponse) :
    (validateStep (HttpResult.response 200 data) = StepOutcome.done true ↔
      data.deliverability = some "DELIVERABLE" ∧
      (data.quality_score.getD 0 : ℚ) > 7 / 10 ∧
      (data.is_valid_format.getD none).getD false = true) ∧
    (data.quality_score = none →
      validateStep (HttpResult.response 200 data) = StepOutcome.done false) := by
  have hq : ¬((0 : ℚ) > 7 / 10) := by norm_num
  constructor
  · simp [validateStep, decision, and_assoc]
  · intro h
    simp [validateStep, decision, h, hq]

/-- C1 witness: a deliverable, valid-format response with no quality score is
rejected. -/
theorem validate_decision_rule_witness :
    validateStep (HttpResult.response 200 ⟨some "DELIVERABLE", none, some (some true)⟩)
      = StepOutcome.done false :=
  (validate_decision_rule ⟨some "DELIVERABLE", none, some (some true)⟩).2 rfl

/-- C5: on HTTP 429 `validate_email` sleeps 1 second and re-issues the identical
request (the same e-mail and credential), so the call's verdict is whatever the
retry produces — a 429 never yields a verdict directly — and under sustained
429 responses it keeps retrying without bound, reaching no verdict within any
amount of fuel. -/
theorem validate_retries_on_429 (oracle : Request → Nat → HttpResult) (req : Request) :
    (∀ attempt fuel, statusOf (oracle req attempt) = some 429 →
      validateStep (oracle req attempt) = StepOutcome.retryAfter 1 ∧
      validate_email_go oracle req attempt (fuel + 1)
        = validate_email_go oracle req (attempt + 1) fuel) ∧
    ((∀ k, statusOf (oracle req k) = some 429) →
      ∀ fuel attempt, validate_email_go oracle req attempt fuel = none) := by
  have hstep : ∀ attempt, statusOf (oracle req attempt) = some 429 →
      validateStep (oracle req attempt) = StepOutcome.retryAfter 1 := by
    intro attempt h
    cases horacle : oracle req attempt with
    | exception => rw [horacle] at h; simp [statusOf] at h
    | response code data =>
      rw [horacle] at h
      simp [statusOf] at h
      subst h
      rfl
  constructor
  · intro attempt fuel h
    refine ⟨hstep attempt h, ?_⟩
    show validate_email_go oracle req attempt (Nat.succ fuel) = _
    rw [validate_email_go, hstep attempt h]
  · intro hall fuel
    induction fuel with
    | zero => intro attempt; rfl
    | succ n ih =>
      intro attempt
      show validate_email_go oracle req attempt (Nat.succ n) = none
      rw [validate_email_go, hstep attempt (hall attempt)]
      exact ih (attempt + 1)

/-- C5 witness: five rounds of sustained 429 responses produce no verdict. -/
theorem validate_retries_on_429_witness :
    validate_email_go (fun _ _ => HttpResult.response 429 ⟨none, none, none⟩)
      ⟨"a@x.com", "key"⟩ 0 5 = none :=
  (validate_retries_on_429 (fun _ _ => HttpResult.response 429 ⟨none, none, none⟩)
    ⟨"a@x.com", "key"⟩).2 (fun _ => rfl) 5 0

/-- C6: a 422 response, any status other than 200 and 429, and a transport
exception all make `validate_email` return false at once, with no retry. -/
theorem validate_false_no_retry (oracle : Request → Nat → HttpResult) (req : Request)
    (attempt fuel : Nat)
    (h200 : statusOf (oracle req attempt) ≠ some 200)
    (h429 : statusOf (oracle req attempt) ≠ some 429) :
    validateStep (oracle req attempt) = StepOutcome.done false ∧
    validate_email_go oracle req attempt (fuel + 1) = some false := by
  have hstep : validateStep (oracle req attempt) = StepOutcome.done false := by
    cases horacle : oracle req attempt with
    | exception => rfl
    | response code data =>
      rw [horacle] at h200 h429
      simp [statusOf] at h200 h429
      by_cases h422 : code = 422
      · subst h422; rfl
      · simp [validateStep, h200, h429, h422]
  refine ⟨hstep, ?_⟩
  show validate_email_go oracle req attempt (Nat.succ fuel) = some false
  rw [validate_email_go, hstep]

/-- C6 witness: a 422 response returns false with no retry. -/
theorem validate_false_no_retry_witness :
    validate_email_go (fun _ _ => HttpResult.response 422 ⟨none, none, none⟩)
      ⟨"a@x.com", "key"⟩ 0 1 = some false :=
  (validate_false_no_retry (fun _ _ => HttpResult.response 422 ⟨none, none, none⟩)
    ⟨"a@x.com", "key"⟩ 0 0 (by decide) (by decide)).2

/-- Stripping commutes with the initials test, since stripping is idempotent. -/
theorem is_initials_strip (s : String) :
    is_initials (some (pyStrip s)) = is_initials (some s) := by
  show initialsMatch (pyStrip (pyStrip s)).toList = initialsMatch (pyStrip s).toList
  rw [pyStripIdem]

/-- C2 (amended): every name whose trimmed form matches the initials regex is
returned trimmed, isConfident = false; the regex, however, also matches plain
short names of one to three letters, so names such as "Bob" are classified as
initials too. -/
theorem initials_returned_unchanged (s : String) (h : is_initials (some s) = true) :
    clean_first_name (some s) = some (some (pyStrip s), false) := by
  have h2 : is_initials (some (pyStrip s)) = true := by rw [is_initials_strip]; exact h
  simp [clean_first_name, h2]

/-- C2 witness: "A.B." is returned unchanged and not confident. -/
theorem initials_returned_unchanged_witness :
    clean_first_name (some "A.B.") = some (some "A.B.", false) := by
  have h := initials_returned_unchanged "A.B." (by decide)
  simpa using h

/-- C2 counterexample: the initials regex does match the ordinary short name
"Bob", which is therefore returned unchanged with isConfident = false. -/
theorem initials_matches_bob :
    is_initials (some "Bob") = true ∧
    clean_first_name (some "Bob") = some (some "Bob", false) := by decide

/-- C3: `clean_first_name` returns NaN unchanged and not confident, but on the
empty string and on whitespace-only strings it raises an IndexError (from
`name.split()[0]`) instead of returning the input. -/
theorem clean_first_name_empty_raises :
    clean_first_name none = some (none, false) ∧
    clean_first_name (some "") = none ∧
    clean_first_name (some "   ") = none := by decide

/-- C4 (amended): for every non-initials name on which the quote pattern finds
a leftmost match, `clean_first_name` returns the trimmed captured text with
isConfident = true; an opening straight quote may be closed by either straight
quote character, and curly quotes are not recognized. -/
theorem quoted_name_extracted (s q : String)
    (h1 : is_initials (some (pyStrip s)) = false)
    (h2 : quoteSearch (pyStrip s).toList = some q)
    (h3 : q.toList ≠ []) :
    clean_first_name (some s) = some (some (pyStrip q), true) := by
  have h2d : quoteSearch (pyStrip s).data = some q := h2
  have h3d : ¬(q.data = []) := h3
  simp [clean_first_name, h1, h2d, h3d]

/-- C4 witness: the double-quoted nickname in `Wen Jing "David"` is extracted. -/
theorem quoted_name_extracted_witness :
    clean_first_name (some "Wen Jing \"David\"") = some (some "David", true) := by
  have h := quoted_name_extracted "Wen Jing \"David\"" "David"
    (by decide) (by decide) (by decide)
  simpa using h

/-- C4 counterexample: a mismatched straight single/double pair is extracted
(`Ann 'Bo" c` yields "Bo"), a curly-double-quoted name is not extracted
(`Wen “David” x` falls through to the first-token rule and yields "Wen"),
and the leftmost quoted text wins regardless of quote kind (`a 'x' "y" b`
yields the single-quoted "x", not the double-quoted "y"). -/
theorem quoted_name_counterexample :
    clean_first_name (some (String.mk ['A', 'n', 'n', ' ', sq, 'B', 'o', dq, ' ', 'c']))
      = some (some "Bo", true) ∧
    clean_first_name (some (String.mk (['W', 'e', 'n', ' ', Char.ofNat 0x201C] ++
        ['D', 'a', 'v', 'i', 'd'] ++ [Char.ofNat 0x201D, ' ', 'x'])))
      = some (some "Wen", true) ∧
    clean_first_name (some (String.mk ['a', ' ', sq, 'x', sq, ' ', dq, 'y', dq, ' ', 'b']))
      = some (some "x", true) := by decide

/-- C7: the pipeline's output consists of exactly the rows whose e-mail was
tagged valid, in their original order, with the tag column dropped; on the
two-row example with a validator accepting both e-mails, the output first
names are "A.B." and "Maria" and the report holds exactly the invalid-name
entry ("A.B.", "a@x.com"). -/
theorem process_csv_keeps_tagged_rows :
    (∀ (validator : String → Bool) (rows cleaned : List CRow)
        (invalid : List (Option String × String)),
      cleanPass rows = some (cleaned, invalid) →
      process_csv validator rows
        = some (cleaned.filter (fun r => validator r.email), invalid)) ∧
    process_csv (fun _ => true)
        [⟨some "A.B.", "a@x.com"⟩, ⟨some "maria garcia", "m@x.com"⟩]
      = some ([⟨some "A.B.", "a@x.com"⟩, ⟨some "Maria", "m@x.com"⟩],
              [(some "A.B.", "a@x.com")]) := by
  constructor
  · intro validator rows cleaned invalid h
    simp [process_csv, h, tagFilterMap]
  · rfl

/-- C7 witness: with a validator accepting only one of the two e-mails, only
that row survives, and the report still lists the invalid name. -/
theorem process_csv_keeps_tagged_rows_witness :
    process_csv (fun e => e == "m@x.com")
        [⟨some "maria garcia", "m@x.com"⟩, ⟨some "A.B.", "a@x.com"⟩]
      = some ([⟨some "Maria", "m@x.com"⟩], [(some "A.B.", "a@x.com")]) := by
  have h := process_csv_keeps_tagged_rows.1 (fun e => e == "m@x.com")
    [⟨some "maria garcia", "m@x.com"⟩, ⟨some "A.B.", "a@x.com"⟩]
    [⟨some "Maria", "m@x.com"⟩, ⟨some "A.B.", "a@x.com"⟩]
    [(some "A.B.", "a@x.com")] rfl
  rw [h]
  decide

/-- Boolean form of the deduper's keep condition. -/
theorem dedupeKeepBool (x : String) (urls : List String) :
    (!(decide (x ∈ urls)) && !(decide (x = ""))) = decide (x ≠ "" ∧ x ∉ urls) := by
  by_cases hm : x ∈ urls
  · simp [hm]
  · by_cases he : x = ""
    · simp [hm, he]
    · simp [hm, he]

/-- C8: a row survives deduplication iff its key, after trimming, is non-empty
and not among the trimmed master keys; the kept rows appear in input order
with the trimmed key written back; on master keys {u1, u2} and input keys
[u1, " u2 ", u3, ""] exactly the u3 row is kept. -/
theorem dedupe_keeps_iff :
    (∀ (master : List (Option String)) (input : List DRow),
      dedupe_csv master input
        = (input.filter (fun r =>
            decide (pyStrip (r.profile.getD "") ≠ "" ∧
              pyStrip (r.profile.getD "") ∉ (master.filterMap id).map pyStrip))).map
            normalizeDRow) ∧
    dedupe_csv [some "u1", some "u2"]
        [⟨some "u1", ["a"]⟩, ⟨some " u2 ", ["b"]⟩, ⟨some "u3", ["c"]⟩, ⟨some "", ["d"]⟩]
      = [⟨some "u3", ["c"]⟩] := by
  constructor
  · intro master input
    simp only [dedupe_csv]
    rw [filterMapComm]
    congr 1
    apply List.filter_congr
    intro r _
    show (!(decide ((normalizeDRow r).profile.getD "" ∈ _)) &&
        !(decide ((normalizeDRow r).profile.getD "" = ""))) = _
    rw [show (normalizeDRow r).profile.getD "" = pyStrip (r.profile.getD "") from rfl]
    exact dedupeKeepBool _ _
  · decide

/-- Applying normalize-then-filter twice is the same as applying it once when
the normalizer is idempotent. -/
theorem normalizeFilterFix {α : Type} (f : α → α) (p : α → Bool) (l : List α)
    (hf : ∀ a, f (f a) = f a) :
    (((l.map f).filter p).map f).filter p = (l.map f).filter p := by
  have h1 : ((l.map f).filter p).map f = (l.map f).filter p := by
    apply mapSelf
    intro a ha
    obtain ⟨b, _, hb⟩ := List.mem_map.mp (List.mem_of_mem_filter ha)
    rw [← hb, hf]
  rw [h1, filterIdem]

/-- C9: deduplication is idempotent: running the deduper a second time against
the same master on its own output returns that output exactly (the first run
already performed the key trimming). -/
theorem dedupe_idempotent (master : List (Option String)) (input : List DRow) :
    dedupe_csv master (dedupe_csv master input) = dedupe_csv master input := by
  simp only [dedupe_csv]
  apply normalizeFilterFix
  intro r
  simp [normalizeDRow, pyStripIdem]

/-- C10: when the quote pattern's first match in a non-initials name captures
pure whitespace, `clean_first_name` returns the empty string with
isConfident = true, so the blank name replaces the original and the row
produces no invalid-name report entry. -/
theorem whitespace_quoted_name_blank (s q : String)
    (h1 : is_initials (some (pyStrip s)) = false)
    (h2 : quoteSearch (pyStrip s).toList = some q)
    (h3 : q.toList ≠ [])
    (h4 : pyStrip q = "") :
    clean_first_name (some s) = some (some "", true) ∧
    ∀ email : String, cleanPass [⟨some s, email⟩] = some ([⟨some "", email⟩], []) := by
  have hc : clean_first_name (some s) = some (some "", true) := by
    have h5 : clean_first_name (some s) = some (some (pyStrip q), true) := by
      have h2d : quoteSearch (pyStrip s).data = some q := h2
      have h3d : ¬(q.data = []) := h3
      simp [clean_first_name, h1, h2d, h3d]
    rw [h5, h4]
  refine ⟨hc, ?_⟩
  intro email
  simp [cleanPass, hc]

/-- C10 witness: the name `A " " B` yields the blank cleaned name confidently,
and its row is not reported. -/
theorem whitespace_quoted_name_blank_witness :
    clean_first_name (some (String.mk ['A', ' ', dq, ' ', dq, ' ', 'B']))
      = some (some "", true) ∧
    cleanPass [⟨some (String.mk ['A', ' ', dq, ' ', dq, ' ', 'B']), "e@x.com"⟩]
      = some ([⟨some "", "e@x.com"⟩], []) := by
  have h := whitespace_quoted_name_blank (String.mk ['A', ' ', dq, ' ', dq, ' ', 'B'])
    " " (by decide) (by decide) (by decide) (by decide)
  exact ⟨h.1, h.2 "e@x.com"⟩

end Clay
